import Mathlib

/-!
# Verification of `travel_time_osrm_ch.py` (`TravelTimeOSRMCH`)

Shallow embedding of the travel-time client in
`src/travel_time_osrm_ch.py`.  The client issues one HTTP GET per call
against an OSRM table service and post-processes the JSON `durations`
matrix.  We split each Python method at its I/O boundary:

* request construction (the URL string built from the coordinates and
  the headers passed to `httpclient.get`) is embedded as a function
  producing an `HttpRequest` value;
* response processing (the scan over the `durations` matrix) is embedded
  as a function from the decoded matrix to the returned triple.

Durations and coordinate components are embedded as `ℚ` (JSON numbers);
fallible operations (Python `IndexError` on list indexing) return
`Option`.  Python `int` is embedded as `ℤ`, and Python list indexing
(with its negative-index wraparound) as `pyIndex`.
-/

namespace TravelTimeOSRMCH

/-- Embedding of Python `sys.maxsize` on a 64-bit platform
(`2^63 - 1`), the initial value of `travel_time` in the selection
loops. -/
def maxsize : ℚ := 9223372036854775807

/-- Embedding of Python list indexing `xs[i]`: a negative index `i`
wraps around to `len(xs) + i`; an index out of range raises
`IndexError`, embedded as `none`. -/
def pyIndex {α : Type} (xs : List α) (i : ℤ) : Option α :=
  if i < 0 then
    if 0 ≤ i + xs.length then xs.get? (i + xs.length).toNat else none
  else xs.get? i.toNat

/-- Embedding of the selection loop shared by
`get_travel_time_many_to_one` (lines 78–87) and
`get_travel_time_one_to_many` (lines 147–156):

    travel_time = sys.maxsize
    saved_idx = -1
    for idx, obj in enumerate(candidates):
        duration = ...
        if 0 < duration < travel_time:
            travel_time = duration
            saved_idx = idx - 1

`tt`/`si` are the current `travel_time`/`saved_idx` and `idx` the
index of the head of the remaining candidate list. -/
def scanAux (tt : ℚ) (si : ℤ) (idx : ℕ) : List ℚ → ℚ × ℤ
  | [] => (tt, si)
  | d :: rest =>
      if 0 < d ∧ d < tt then scanAux d ((idx : ℤ) - 1) (idx + 1) rest
      else scanAux tt si (idx + 1) rest

/-- The selection loop started on the full candidate list with the
initial state `travel_time = sys.maxsize`, `saved_idx = -1`. -/
def scanDurations (ds : List ℚ) : ℚ × ℤ :=
  scanAux maxsize (-1) 0 ds

/-- Column 0 of the `durations` matrix: the loop of
`get_travel_time_many_to_one` reads `duration = obj[0]` for every row
`obj` of `durations`; the read raises an index error
(embedded as `none`) on an empty row. -/
def column0 : List (List ℚ) → Option (List ℚ)
  | [] => some []
  | row :: rest => do
      let d ← row.head?
      let col ← column0 rest
      return d :: col

/-- Response processing of `get_travel_time_many_to_one`
(lines 76–101): the loop reads `obj[0]` of every row of
the `durations` matrix, scans that column for the minimum
duration strictly between `0` and the current `travel_time`, divides
by `3600`, and returns the source fetched from
`sources_longlats[saved_idx]` together with the unchanged
destination. -/
def get_travel_time_many_to_one {α : Type} (sources_longlats : List α)
    (destination_longlat : α) (durations : List (List ℚ)) :
    Option (ℚ × α × α) := do
  let column ← column0 durations
  let (travel_time, saved_idx) := scanDurations column
  let source ← pyIndex sources_longlats saved_idx
  return (travel_time / 3600, source, destination_longlat)

/-- Response processing of `get_travel_time_one_to_many`
(lines 145–170): the loop scans the first row
row 0 of the `durations` matrix (embedded as `List.head?`, `none` when
the matrix has no rows), divides the winning duration by `3600`, and
returns the destination fetched from
`destinations_longlats[saved_idx]` together with the unchanged
source. -/
def get_travel_time_one_to_many {α : Type} (source_longlat : α)
    (destinations_longlats : List α) (durations : List (List ℚ)) :
    Option (ℚ × α × α) := do
  let row ← durations.head?
  let (travel_time, saved_idx) := scanDurations row
  let destination ← pyIndex destinations_longlats saved_idx
  return (travel_time / 3600, destination, source_longlat)

/-- Response processing of `get_travel_time_one_to_one`
(lines 213–225): reads row 0, column 0 of the `durations` matrix, divides by
`3600` and returns it together with the unchanged input
coordinates. -/
def get_travel_time_one_to_one {α : Type} (source_longlat : α)
    (destination_longlat : α) (durations : List (List ℚ)) :
    Option (ℚ × α × α) := do
  let row ← durations.head?
  let d ← row.head?
  return (d / 3600, source_longlat, destination_longlat)

/-- Class attribute `ip_address` (line 26). -/
def ip_address : String := "127.0.0.1"

/-- Class attribute `port` (line 27). -/
def port : String := "5001"

/-- Class attribute `url` (line 30): base URL of the table service. -/
def url : String := "http://" ++ ip_address ++ ":" ++ port ++ "/table/v1/driving/"

/-- Class attribute `headers` (line 32): the header dict the class
defines (commented "Required header to make call to OSRM server"). -/
def headers : List (String × String) := [("Content-Type", "application/json")]

/-- The observable content of one call to `httpclient.get`: the URL
string passed as `request`, and the `headers` keyword argument
(`none` when the call passes no `headers` argument, so that the HTTP
library defaults apply). -/
structure HttpRequest where
  requestUrl : String
  passedHeaders : Option (List (String × String))
  deriving DecidableEq

/-- Python `str.rstrip(";")` (lines 60, 129, 197): removes all
trailing semicolons. -/
def rstripSemicolons (s : String) : String :=
  ⟨(s.data.reverse.dropWhile (fun c => c = ';')).reverse⟩

/-- The coordinate-string construction shared by the three methods
(lines 54–60, 123–129, 191–197): starting from the empty string,
append `str(obj[0]) + "," + str(obj[1]) + ";"` for every location of
the combined list, then strip the trailing semicolon.  Python `str`
on the numeric components is abstracted as `render`, since its exact
output is float formatting. -/
def serializeLocations (render : ℚ → String) (locations : List (ℚ × ℚ)) : String :=
  rstripSemicolons
    (locations.foldl (fun acc c => acc ++ (render c.1 ++ "," ++ render c.2 ++ ";")) "")

/-- The HTTP request issued by `get_travel_time_many_to_one`
(lines 50–67): the combined list puts the destination first
(`appendleft`), the query string is `?destinations=0&skip_waypoints=true`,
and `httpclient.get(request)` is called with no `headers` argument. -/
def many_to_one_request (render : ℚ → String) (sources_longlats : List (ℚ × ℚ))
    (destination_longlat : ℚ × ℚ) : HttpRequest :=
  { requestUrl := url ++ serializeLocations render (destination_longlat :: sources_longlats)
      ++ "?destinations=0&skip_waypoints=true"
    passedHeaders := none }

/-- The HTTP request issued by `get_travel_time_one_to_many`
(lines 119–136): the combined list puts the source first, the query
string is `?sources=0&skip_waypoints=true`, and `httpclient.get(request)`
is called with no `headers` argument. -/
def one_to_many_request (render : ℚ → String) (source_longlat : ℚ × ℚ)
    (destinations_longlats : List (ℚ × ℚ)) : HttpRequest :=
  { requestUrl := url ++ serializeLocations render (source_longlat :: destinations_longlats)
      ++ "?sources=0&skip_waypoints=true"
    passedHeaders := none }

/-- The HTTP request issued by `get_travel_time_one_to_one`
(lines 188–204): the combined list is `[source] + [destination]`, the
query string is `?sources=0&destinations=1&skip_waypoints=true`, and
`httpclient.get(request)` is called with no `headers` argument. -/
def one_to_one_request (render : ℚ → String) (source_longlat : ℚ × ℚ)
    (destination_longlat : ℚ × ℚ) : HttpRequest :=
  { requestUrl := url ++ serializeLocations render [source_longlat, destination_longlat]
      ++ "?sources=0&destinations=1&skip_waypoints=true"
    passedHeaders := none }

/-- Joining strings with `";"`, no trailing separator: the spec-side
description of the coordinate serialization, to be compared with
`serializeLocations`. -/
def joinSemicolons : List String → String
  | [] => ""
  | [p] => p
  | p :: rest => p ++ ";" ++ joinSemicolons rest

/-- The `longitude,latitude` pair string of one coordinate. -/
def pairString (render : ℚ → String) (c : ℚ × ℚ) : String :=
  render c.1 ++ "," ++ render c.2

/-- Splitting a character list at every occurrence of `sep`, with the
semantics of Python `str.split` (an accumulator holds the current
field reversed). -/
def splitListAux (sep : Char) : List Char → List Char → List (List Char)
  | [], acc => [acc.reverse]
  | c :: cs, acc =>
      if c = sep then acc.reverse :: splitListAux sep cs []
      else splitListAux sep cs (c :: acc)

/-- Python `s.split(sep)` on strings. -/
def splitString (sep : Char) (s : String) : List String :=
  (splitListAux sep s.data []).map fun l => ⟨l⟩

/-- Modelled from the spec: one `longitude,latitude` field of the
request string is parsed by splitting on `,` into exactly two numeric
components, read back with `read` (the inverse of the abstracted
`str` rendering).  The repository itself contains no parser; the
round-trip property of §8 presupposes one. -/
def parsePair (read : String → Option ℚ) (part : String) : Option (ℚ × ℚ) :=
  match splitString ',' part with
  | [a, b] => do
      let x ← read a
      let y ← read b
      return (x, y)
  | _ => none

/-- Parsing every field of a split request string. -/
def parsePairs (read : String → Option ℚ) : List String → Option (List (ℚ × ℚ))
  | [] => some []
  | part :: rest => do
      let p ← parsePair read part
      let ps ← parsePairs read rest
      return p :: ps

/-- Modelled from the spec: re-parsing a request coordinate string
(§8 round-trip property) — split the string on `;` into
`longitude,latitude` fields and parse each field.  The repository
itself contains no parser for the request string. -/
def parseLocations (read : String → Option ℚ) (s : String) : Option (List (ℚ × ℚ)) :=
  parsePairs read (splitString ';' s)

/-- A usable `str`-rendering of one numeric component: nonempty and
free of the two separator characters. -/
def goodRender (render : ℚ → String) (q : ℚ) : Prop :=
  (render q).data ≠ [] ∧ ';' ∉ (render q).data ∧ ',' ∉ (render q).data

instance (render : ℚ → String) (q : ℚ) : Decidable (goodRender render q) :=
  inferInstanceAs (Decidable ((render q).data ≠ [] ∧ ';' ∉ (render q).data
    ∧ ',' ∉ (render q).data))

/-- A concrete rendering of the finitely many coordinate components
used in witness instances. -/
def renderTable (q : ℚ) : String :=
  if q = 13 then "13" else if q = 55 then "55"
  else if q = 14 then "14" else if q = 56 then "56" else "0"

/-- A concrete reader inverting `renderTable` on those components. -/
def readTable (s : String) : Option ℚ :=
  if s = "13" then some 13 else if s = "55" then some 55
  else if s = "14" then some 14 else if s = "56" then some 56 else none

end TravelTimeOSRMCH

namespace TravelTimeOSRMCH

/-- If no remaining candidate is strictly between `0` and the current
`travel_time`, the loop leaves its state unchanged. -/
lemma scanAux_of_no_candidate :
    ∀ (ds : List ℚ) (tt : ℚ) (si : ℤ) (idx : ℕ),
      (∀ d ∈ ds, ¬(0 < d ∧ d < tt)) → scanAux tt si idx ds = (tt, si) := by
  intro ds
  induction ds with
  | nil => intro tt si idx _; rfl
  | cons d rest ih =>
      intro tt si idx h
      have hd : ¬(0 < d ∧ d < tt) := h d (List.mem_cons_self d rest)
      simp only [scanAux, if_neg hd]
      exact ih tt si (idx + 1) fun e he => h e (List.mem_cons_of_mem d he)

/-- Full characterization of the selection loop: either no candidate
beats the incoming state and the state is returned unchanged, or the
loop returns the first occurrence of the least candidate strictly
between `0` and the incoming `travel_time`, with `saved_idx` one less
than its position. -/
lemma scanAux_spec :
    ∀ (ds : List ℚ) (tt : ℚ) (si : ℤ) (idx : ℕ),
      (scanAux tt si idx ds = (tt, si) ∧ ∀ d ∈ ds, ¬(0 < d ∧ d < tt)) ∨
      (∃ j d, ds.get? j = some d ∧ 0 < d ∧ d < tt ∧
        scanAux tt si idx ds = (d, (idx : ℤ) + j - 1) ∧
        (∀ k e, ds.get? k = some e → 0 < e → d ≤ e) ∧
        (∀ k, k < j → ∀ e, ds.get? k = some e → ¬(0 < e ∧ e ≤ d))) := by
  intro ds
  induction ds with
  | nil => intro tt si idx; exact Or.inl ⟨rfl, by simp⟩
  | cons d rest ih =>
      intro tt si idx
      by_cases hc : 0 < d ∧ d < tt
      · have hs : scanAux tt si idx (d :: rest)
            = scanAux d ((idx : ℤ) - 1) (idx + 1) rest := by
          simp only [scanAux, if_pos hc]
        rcases ih d ((idx : ℤ) - 1) (idx + 1) with ⟨h1, h2⟩ | ⟨j, d', hget, hpos, hlt, heq, hmin, hties⟩
        · refine Or.inr ⟨0, d, rfl, hc.1, hc.2, ?_, ?_, ?_⟩
          · rw [hs, h1]; norm_num
          · intro k e hk he
            cases k with
            | zero =>
                simp only [List.get?_cons_zero, Option.some.injEq] at hk
                exact le_of_eq hk
            | succ k =>
                simp only [List.get?_cons_succ] at hk
                have hmem : e ∈ rest := List.get?_mem hk
                have := h2 e hmem
                by_contra hlt2
                push_neg at hlt2
                exact this ⟨he, hlt2⟩
          · intro k hk; exact absurd hk (Nat.not_lt_zero k)
        · refine Or.inr ⟨j + 1, d', ?_, hpos, lt_trans hlt hc.2, ?_, ?_, ?_⟩
          · simpa only [List.get?_cons_succ] using hget
          · rw [hs, heq]; congr 1; push_cast; ring
          · intro k e hk he
            cases k with
            | zero =>
                simp only [List.get?_cons_zero, Option.some.injEq] at hk
                exact hk ▸ le_of_lt hlt
            | succ k =>
                simp only [List.get?_cons_succ] at hk
                exact hmin k e hk he
          · intro k hk e hke
            cases k with
            | zero =>
                simp only [List.get?_cons_zero, Option.some.injEq] at hke
                subst hke
                rintro ⟨-, hle⟩
                exact absurd hle (not_le.mpr hlt)
            | succ k =>
                simp only [List.get?_cons_succ] at hke
                exact hties k (by omega) e hke
      · have hs : scanAux tt si idx (d :: rest)
            = scanAux tt si (idx + 1) rest := by
          simp only [scanAux, if_neg hc]
        rcases ih tt si (idx + 1) with ⟨h1, h2⟩ | ⟨j, d', hget, hpos, hlt, heq, hmin, hties⟩
        · refine Or.inl ⟨hs.trans h1, ?_⟩
          intro e he
          rcases List.mem_cons.mp he with rfl | hmem
          · exact hc
          · exact h2 e hmem
        · refine Or.inr ⟨j + 1, d', ?_, hpos, hlt, ?_, ?_, ?_⟩
          · simpa only [List.get?_cons_succ] using hget
          · rw [hs, heq]; congr 1; push_cast; ring
          · intro k e hk he
            cases k with
            | zero =>
                simp only [List.get?_cons_zero, Option.some.injEq] at hk
                have hc2 : ¬(0 < e ∧ e < tt) := hk ▸ hc
                have htt : tt ≤ e := by
                  by_contra hlt2
                  exact hc2 ⟨he, not_le.mp hlt2⟩
                exact le_of_lt (lt_of_lt_of_le hlt htt)
            | succ k =>
                simp only [List.get?_cons_succ] at hk
                exact hmin k e hk he
          · intro k hk e hke
            cases k with
            | zero =>
                simp only [List.get?_cons_zero, Option.some.injEq] at hke
                have hc2 : ¬(0 < e ∧ e < tt) := hke ▸ hc
                rintro ⟨hpe, hle⟩
                have htt : tt ≤ e := by
                  by_contra hlt2
                  exact hc2 ⟨hpe, not_le.mp hlt2⟩
                exact absurd (lt_of_le_of_lt hle hlt) (not_lt.mpr htt)
            | succ k =>
                simp only [List.get?_cons_succ] at hke
                exact hties k (by omega) e hke

/-- The loop `scanDurations` characterized: the sentinel state `(maxsize, -1)`
when no duration lies strictly between `0` and `sys.maxsize`, otherwise
the first occurrence of the least such duration with `saved_idx`
one less than its position. -/
lemma scanDurations_spec (ds : List ℚ) :
    (scanDurations ds = (maxsize, -1) ∧ ∀ d ∈ ds, ¬(0 < d ∧ d < maxsize)) ∨
    (∃ j d, ds.get? j = some d ∧ 0 < d ∧ d < maxsize ∧
      scanDurations ds = (d, (j : ℤ) - 1) ∧
      (∀ k e, ds.get? k = some e → 0 < e → d ≤ e) ∧
      (∀ k, k < j → ∀ e, ds.get? k = some e → ¬(0 < e ∧ e ≤ d))) := by
  rcases scanAux_spec ds maxsize (-1) 0 with ⟨h1, h2⟩ | ⟨j, d, hget, hpos, hlt, heq, hmin, hties⟩
  · exact Or.inl ⟨h1, h2⟩
  · refine Or.inr ⟨j, d, hget, hpos, hlt, ?_, hmin, hties⟩
    rw [scanDurations] at *
    rw [heq]; congr 1; push_cast; ring

/-- Python `xs[-1]` on a nonempty list yields the last element. -/
lemma pyIndex_neg_one {α : Type} (xs : List α) (h : xs ≠ []) :
    pyIndex xs (-1) = some (xs.getLast h) := by
  have hlen : 1 ≤ xs.length := List.length_pos.mpr h
  rw [pyIndex, if_pos (by norm_num), if_pos (by omega)]
  have htn : ((-1 : ℤ) + xs.length).toNat = xs.length - 1 := by omega
  rw [htn, ← List.getLast?_eq_get?, List.getLast?_eq_getLast xs h]

/-- Python `xs[i]` for a nonnegative index is plain positional
lookup. -/
lemma pyIndex_ofNat {α : Type} (xs : List α) (n : ℕ) :
    pyIndex xs (n : ℤ) = xs.get? n := by
  rw [pyIndex, if_neg (by omega), Int.toNat_natCast]

/-- The serialization fold appends one `longitude,latitude;` group per
location. -/
lemma serialize_foldl_data (render : ℚ → String) :
    ∀ (locs : List (ℚ × ℚ)) (acc : String),
      (locs.foldl (fun acc c => acc ++ (render c.1 ++ "," ++ render c.2 ++ ";")) acc).data
        = acc.data ++ (locs.map fun c => (pairString render c).data ++ [';']).flatten := by
  intro locs
  induction locs with
  | nil => intro acc; simp
  | cons c rest ih =>
      intro acc
      rw [List.foldl_cons, ih]
      simp [String.data_append, pairString]

/-- The `longitude,latitude` pair string at the character level. -/
lemma pairString_data (render : ℚ → String) (c : ℚ × ℚ) :
    (pairString render c).data = (render c.1).data ++ ',' :: (render c.2).data := by
  simp [pairString, String.data_append]

/-- Concatenating `field;` groups is joining the fields with `;` plus
one trailing `;`. -/
lemma flatten_map_semi :
    ∀ (ps : List String), ps ≠ [] →
      (ps.map fun p => p.data ++ [';']).flatten = (joinSemicolons ps).data ++ [';'] := by
  intro ps
  induction ps with
  | nil => intro h; exact absurd rfl h
  | cons p rest ih =>
      intro _
      cases rest with
      | nil => simp [joinSemicolons]
      | cons q rest2 =>
          rw [List.map_cons, List.flatten_cons, ih (by simp)]
          simp [joinSemicolons, String.data_append]

/-- A join of nonempty fields is nonempty. -/
lemma joinSemicolons_data_ne_nil :
    ∀ (ps : List String), ps ≠ [] → (∀ p ∈ ps, p.data ≠ []) →
      (joinSemicolons ps).data ≠ [] := by
  intro ps
  induction ps with
  | nil => intro h; exact absurd rfl h
  | cons p rest _ =>
      intro _ hp
      cases rest with
      | nil => exact hp p (List.mem_cons_self p [])
      | cons q rest2 =>
          have hpd : p.data ≠ [] := hp p (List.mem_cons_self p _)
          simp only [joinSemicolons, String.data_append]
          intro hcontra
          rw [List.append_eq_nil] at hcontra
          rw [List.append_eq_nil] at hcontra
          exact hpd hcontra.1.1

/-- If the last element of a list is not `;`, nothing survives the
right-strip of one appended `;`. -/
lemma trim_append_semi (l : List Char) (h : l.getLast? ≠ some ';') :
    ((l ++ [';']).reverse.dropWhile (fun c => c = ';')).reverse = l := by
  rw [List.reverse_append]
  simp only [List.reverse_cons, List.reverse_nil, List.nil_append, List.singleton_append]
  rw [List.dropWhile_cons, if_pos (by simp)]
  have hdrop : l.reverse.dropWhile (fun c => decide (c = ';')) = l.reverse := by
    cases hrev : l.reverse with
    | nil => rfl
    | cons a t =>
        have ha : l.getLast? = some a := by
          rw [← List.head?_reverse, hrev]; rfl
        have hne : a ≠ ';' := fun hc => h (hc ▸ ha)
        rw [List.dropWhile_cons, if_neg (by simpa using hne)]
  rw [hdrop, List.reverse_reverse]

/-- A join of nonempty `;`-free fields does not end in `;`. -/
lemma joinSemicolons_getLast :
    ∀ (ps : List String), (∀ p ∈ ps, p.data ≠ [] ∧ ';' ∉ p.data) →
      (joinSemicolons ps).data.getLast? ≠ some ';' := by
  intro ps
  induction ps with
  | nil => intro _ hc; simp [joinSemicolons] at hc
  | cons p rest ih =>
      intro hp
      cases rest with
      | nil =>
          intro hc
          have hmem : ';' ∈ p.data := by
            rcases List.mem_getLast?_eq_getLast (Option.mem_def.mpr hc) with ⟨hne2, heq⟩
            exact heq ▸ List.getLast_mem hne2
          exact (hp p (List.mem_cons_self p _)).2 hmem
      | cons q rest2 =>
          have hrest : ∀ r ∈ q :: rest2, r.data ≠ [] ∧ ';' ∉ r.data :=
            fun r hr => hp r (List.mem_cons_of_mem p hr)
          have hne2 : (joinSemicolons (q :: rest2)).data ≠ [] :=
            joinSemicolons_data_ne_nil (q :: rest2) (by simp)
              (fun r hr => (hrest r hr).1)
          have hdata : (joinSemicolons (p :: q :: rest2)).data
              = (p.data ++ [';']) ++ (joinSemicolons (q :: rest2)).data := by
            simp [joinSemicolons, String.data_append]
          rw [hdata, List.getLast?_append_of_ne_nil _ hne2]
          exact ih hrest

/-- The serialization of a nonempty location list is exactly the
`longitude,latitude` fields joined by `;`, with no trailing
separator. -/
lemma serializeLocations_eq_join (render : ℚ → String) (locs : List (ℚ × ℚ))
    (hne : locs ≠ [])
    (hgood : ∀ c ∈ locs, goodRender render c.1 ∧ goodRender render c.2) :
    serializeLocations render locs = joinSemicolons (locs.map (pairString render)) := by
  have hpair : ∀ p ∈ locs.map (pairString render), p.data ≠ [] ∧ ';' ∉ p.data := by
    intro p hp
    rcases List.mem_map.mp hp with ⟨c, hc, rfl⟩
    rcases hgood c hc with ⟨⟨h1ne, h1s, -⟩, ⟨-, h2s, -⟩⟩
    rw [pairString_data]
    constructor
    · intro hcontra
      rw [List.append_eq_nil] at hcontra
      exact h1ne hcontra.1
    · intro hcontra
      rcases List.mem_append.mp hcontra with hl | hr
      · exact h1s hl
      · rcases List.mem_cons.mp hr with heq | hr2
        · exact absurd heq (by decide)
        · exact h2s hr2
  apply String.ext
  show ((serializeLocations render locs).data) = _
  rw [serializeLocations]
  show ((_ : List Char).reverse.dropWhile (fun c => c = ';')).reverse = _
  rw [serialize_foldl_data]
  rw [show ("" : String).data = [] from rfl, List.nil_append]
  rw [show (locs.map fun c => (pairString render c).data ++ [';'])
        = (locs.map (pairString render)).map (fun p => p.data ++ [';']) from by
      simp [List.map_map, Function.comp]]
  rw [flatten_map_semi (locs.map (pairString render)) (by simpa using hne)]
  exact trim_append_semi _ (joinSemicolons_getLast _ hpair)

/-- Splitting a separator-free list yields one field. -/
lemma splitListAux_no_sep (sep : Char) :
    ∀ (l acc : List Char), sep ∉ l →
      splitListAux sep l acc = [acc.reverse ++ l] := by
  intro l
  induction l with
  | nil => intro acc _; simp [splitListAux]
  | cons c cs ih =>
      intro acc h
      have hc : ¬(c = sep) := fun hc => h (hc ▸ List.mem_cons_self c cs)
      simp only [splitListAux, if_neg hc]
      rw [ih (c :: acc) (fun hm => h (List.mem_cons_of_mem c hm))]
      simp

/-- Splitting past the first separator emits the first field and
recurses. -/
lemma splitListAux_append_sep (sep : Char) :
    ∀ (l₁ l₂ acc : List Char), sep ∉ l₁ →
      splitListAux sep (l₁ ++ sep :: l₂) acc
        = (acc.reverse ++ l₁) :: splitListAux sep l₂ [] := by
  intro l₁
  induction l₁ with
  | nil =>
      intro l₂ acc _
      simp [splitListAux]
  | cons c cs ih =>
      intro l₂ acc h
      have hc : ¬(c = sep) := fun hc => h (hc ▸ List.mem_cons_self c cs)
      simp only [List.cons_append, splitListAux, if_neg hc]
      rw [show cs.append (sep :: l₂) = cs ++ sep :: l₂ from rfl]
      rw [ih l₂ (c :: acc) (fun hm => h (List.mem_cons_of_mem c hm))]
      simp

/-- Splitting on `;` inverts joining `;`-free fields with `;`. -/
lemma splitString_joinSemicolons :
    ∀ (ps : List String), ps ≠ [] → (∀ p ∈ ps, ';' ∉ p.data) →
      splitString ';' (joinSemicolons ps) = ps := by
  intro ps
  induction ps with
  | nil => intro h; exact absurd rfl h
  | cons p rest ih =>
      intro _ hp
      cases rest with
      | nil =>
          rw [splitString, show joinSemicolons [p] = p from rfl]
          rw [splitListAux_no_sep ';' p.data [] (hp p (List.mem_cons_self p _))]
          simp
      | cons q rest2 =>
          have hdata : (joinSemicolons (p :: q :: rest2)).data
              = p.data ++ ';' :: (joinSemicolons (q :: rest2)).data := by
            simp [joinSemicolons, String.data_append]
          rw [splitString, hdata]
          rw [splitListAux_append_sep ';' p.data _ [] (hp p (List.mem_cons_self p _))]
          rw [List.map_cons]
          have h1 : (⟨List.reverse [] ++ p.data⟩ : String) = p := by simp
          rw [h1]
          have h2 : (splitListAux ';' (joinSemicolons (q :: rest2)).data []).map
                (fun l => (⟨l⟩ : String))
              = splitString ';' (joinSemicolons (q :: rest2)) := rfl
          rw [h2, ih (by simp) (fun r hr => hp r (List.mem_cons_of_mem p hr))]

/-- Parsing one serialized `longitude,latitude` field recovers the
coordinate. -/
lemma parsePair_pairString (read : String → Option ℚ) (render : ℚ → String)
    (c : ℚ × ℚ) (hg1 : goodRender render c.1) (hg2 : goodRender render c.2)
    (hr1 : read (render c.1) = some c.1) (hr2 : read (render c.2) = some c.2) :
    parsePair read (pairString render c) = some c := by
  have hsplit : splitString ',' (pairString render c) = [render c.1, render c.2] := by
    rw [splitString, pairString_data]
    rw [splitListAux_append_sep ',' _ _ [] hg1.2.2]
    rw [splitListAux_no_sep ',' _ [] hg2.2.2]
    simp
  rw [parsePair, hsplit]
  simp [hr1, hr2]

/-- Parsing every serialized field recovers the coordinate list. -/
lemma parsePairs_map (read : String → Option ℚ) (render : ℚ → String) :
    ∀ (locs : List (ℚ × ℚ)),
      (∀ c ∈ locs, goodRender render c.1 ∧ goodRender render c.2) →
      (∀ c ∈ locs, read (render c.1) = some c.1 ∧ read (render c.2) = some c.2) →
      parsePairs read (locs.map (pairString render)) = some locs := by
  intro locs
  induction locs with
  | nil => intro _ _; rfl
  | cons c rest ih =>
      intro hg hr
      rw [List.map_cons, parsePairs]
      rw [parsePair_pairString read render c
        (hg c (List.mem_cons_self c rest)).1 (hg c (List.mem_cons_self c rest)).2
        (hr c (List.mem_cons_self c rest)).1 (hr c (List.mem_cons_self c rest)).2]
      rw [ih (fun d hd => hg d (List.mem_cons_of_mem c hd))
        (fun d hd => hr d (List.mem_cons_of_mem c hd))]
      rfl

/-!
## Claim theorems
-/

/-- C1 (counterexample): with sources `[A, B, C]` (embedded as
`[0, 1, 2]`) and the mocked durations column `[100, 50, 200]` taken
literally, `get_travel_time_many_to_one` returns
`travel_time_hours = 50/3600` but selects source `A` (index 0), not
source `B` (index 1) as the claim states: `saved_idx = 1 - 1 = 0`. -/
theorem many_to_one_mocked_example_selects_A :
    get_travel_time_many_to_one [(0 : ℚ), 1, 2] 9 [[100], [50], [200]]
        = some (50 / 3600, 0, 9)
    ∧ get_travel_time_many_to_one [(0 : ℚ), 1, 2] 9 [[100], [50], [200]]
        ≠ some (50 / 3600, 1, 9) := by
  have h : get_travel_time_many_to_one [(0 : ℚ), 1, 2] 9 [[100], [50], [200]]
      = some (50 / 3600, 0, 9) := by
    simp [get_travel_time_many_to_one, column0, scanDurations, scanAux, pyIndex, maxsize]
    norm_num
  refine ⟨h, ?_⟩
  rw [h]
  intro hc
  have := (Prod.mk.injEq _ _ _ _).mp (Option.some.injEq _ _ ▸ hc)
  exact absurd (congrArg Prod.fst this.2) (by norm_num)

/-- C1 (amended): for a many-to-one call whose column 0 holds a
strictly positive duration (below the `sys.maxsize` sentinel), the
operation returns the minimum strictly-positive duration of that
column divided by 3600, together with the source looked up in the
original sources list — with Python index semantics — at the winning
row index minus one; the winning row index is the first position
achieving the minimum.  In particular, for sources `[A, B, C]` and a
full destination-first mocked column `[0, 100, 50, 200]` (row 0 is the
self-duration of the destination), it selects source `B` and returns
`50/3600`. -/
theorem many_to_one_returns_min_positive :
    (∀ (α : Type) (sources : List α) (dest : α) (rows : List (List ℚ))
        (col : List ℚ),
      column0 rows = some col →
      (∃ d ∈ col, 0 < d ∧ d < maxsize) →
      ∃ j d, col.get? j = some d ∧ 0 < d ∧
        (∀ k e, col.get? k = some e → 0 < e → d ≤ e) ∧
        (∀ k, k < j → ∀ e, col.get? k = some e → ¬(0 < e ∧ e ≤ d)) ∧
        get_travel_time_many_to_one sources dest rows
          = Option.map (fun s => (d / 3600, s, dest))
              (pyIndex sources ((j : ℤ) - 1)))
    ∧ (∀ (α : Type) (A B C D : α),
      get_travel_time_many_to_one [A, B, C] D [[0], [100], [50], [200]]
        = some (50 / 3600, B, D)) := by
  constructor
  · intro α sources dest rows col hcol hex
    rcases scanDurations_spec col with ⟨-, hnone⟩ | ⟨j, d, hget, hpos, hlt, hscan, hmin, hties⟩
    · rcases hex with ⟨d, hd, hdpos, hdlt⟩
      exact absurd ⟨hdpos, hdlt⟩ (hnone d hd)
    · refine ⟨j, d, hget, hpos, hmin, hties, ?_⟩
      simp only [get_travel_time_many_to_one, hcol, Option.some_bind, hscan]
      cases hp : pyIndex sources ((j : ℤ) - 1) <;> simp [hp, hscan]
  · intro α A B C D
    simp [get_travel_time_many_to_one, column0, scanDurations, scanAux, pyIndex, maxsize]
    norm_num

/-- C1 (witness): the amended theorem applied to sources `[0, 1, 2]`,
destination `9` and the mocked matrix `[[0], [100], [50], [200]]`. -/
theorem many_to_one_returns_min_positive_witness :
    ∃ j d, ([0, 100, 50, 200] : List ℚ).get? j = some d ∧ 0 < d ∧
      (∀ k e, ([0, 100, 50, 200] : List ℚ).get? k = some e → 0 < e → d ≤ e) ∧
      (∀ k, k < j → ∀ e, ([0, 100, 50, 200] : List ℚ).get? k = some e →
        ¬(0 < e ∧ e ≤ d)) ∧
      get_travel_time_many_to_one [(0 : ℚ), 1, 2] 9 [[0], [100], [50], [200]]
        = Option.map (fun s => (d / 3600, s, (9 : ℚ)))
            (pyIndex [(0 : ℚ), 1, 2] ((j : ℤ) - 1)) :=
  many_to_one_returns_min_positive.1 ℚ [0, 1, 2] 9 [[0], [100], [50], [200]]
    [0, 100, 50, 200] (by rfl)
    ⟨50, by norm_num [maxsize]⟩

/-- C2: a one-to-one call returns the matrix entry at row 0, column 0
divided by 3600 and echoes the input source and destination unchanged;
in particular for `durations = [[1800]]` it returns
`travel_time_hours = 0.5`. -/
theorem one_to_one_reads_entry_and_echoes :
    (∀ (α : Type) (src dest : α) (rows : List (List ℚ)) (row : List ℚ) (d : ℚ),
      rows.head? = some row → row.head? = some d →
      get_travel_time_one_to_one src dest rows = some (d / 3600, src, dest))
    ∧ (∀ (α : Type) (src dest : α),
      get_travel_time_one_to_one src dest [[1800]] = some (1 / 2, src, dest)) := by
  constructor
  · intro α src dest rows row d hrow hd
    simp [get_travel_time_one_to_one, hrow, hd]
  · intro α src dest
    simp [get_travel_time_one_to_one]
    norm_num

/-- C2 (witness): the theorem applied to the mocked response
`[[1800]]`, yielding `1800 / 3600`. -/
theorem one_to_one_reads_entry_and_echoes_witness :
    get_travel_time_one_to_one (5 : ℚ) 6 [[1800]] = some (1800 / 3600, 5, 6) :=
  one_to_one_reads_entry_and_echoes.1 ℚ 5 6 [[1800]] [1800] 1800 rfl rfl

/-- C3: a one-to-many call whose first response row starts with the
non-positive self-duration of the source and holds a strictly positive
duration (below the sentinel) selects the minimum strictly-positive
duration of that row; the coordinate it returns is the element of the
original destinations list at the winning row index minus one — the
offset undoes position 0 held by the source in the combined request list. -/
theorem one_to_many_selects_min_destination :
    ∀ (α : Type) (src : α) (dests : List α) (rows : List (List ℚ))
      (r0 : ℚ) (rest : List ℚ),
      rows.head? = some (r0 :: rest) → ¬0 < r0 →
      (∃ d ∈ rest, 0 < d ∧ d < maxsize) →
      ∃ j d, rest.get? j = some d ∧ 0 < d ∧
        (∀ k e, (r0 :: rest).get? k = some e → 0 < e → d ≤ e) ∧
        (∀ k, k < j → ∀ e, rest.get? k = some e → ¬(0 < e ∧ e ≤ d)) ∧
        get_travel_time_one_to_many src dests rows
          = Option.map (fun dd => (d / 3600, dd, src)) (dests.get? j) := by
  intro α src dests rows r0 rest hrow hr0 hex
  rcases scanDurations_spec (r0 :: rest) with ⟨-, hnone⟩ | ⟨j1, d, hget, hpos, hlt, hscan, hmin, hties⟩
  · rcases hex with ⟨d, hd, hdpos, hdlt⟩
    exact absurd ⟨hdpos, hdlt⟩ (hnone d (List.mem_cons_of_mem r0 hd))
  · cases j1 with
    | zero =>
        rw [List.get?_cons_zero, Option.some.injEq] at hget
        exact absurd (hget ▸ hpos) hr0
    | succ j =>
        rw [List.get?_cons_succ] at hget
        refine ⟨j, d, hget, hpos, hmin, ?_, ?_⟩
        · intro k hk e hke
          exact hties (k + 1) (by omega) e (by rw [List.get?_cons_succ]; exact hke)
        · have hidx : ((j + 1 : ℕ) : ℤ) - 1 = (j : ℤ) := by push_cast; ring
          rw [hidx] at hscan
          cases hp : dests.get? j <;>
            (rw [List.get?_eq_getElem?] at hp
             simp [get_travel_time_one_to_many, hrow, hscan, pyIndex_ofNat, hp])

/-- C3 (witness): the theorem applied to destinations `[0, 1, 2]` and
the mocked single-row response `[[0, 100, 50, 200]]`: the minimum
positive duration `50` sits at row index 2, and the returned
coordinate is `destinations[1]`. -/
theorem one_to_many_selects_min_destination_witness :
    ∃ j d, ([100, 50, 200] : List ℚ).get? j = some d ∧ 0 < d ∧
      (∀ k e, ([0, 100, 50, 200] : List ℚ).get? k = some e → 0 < e → d ≤ e) ∧
      (∀ k, k < j → ∀ e, ([100, 50, 200] : List ℚ).get? k = some e →
        ¬(0 < e ∧ e ≤ d)) ∧
      get_travel_time_one_to_many (7 : ℚ) [0, 1, 2] [[0, 100, 50, 200]]
        = Option.map (fun dd => (d / 3600, dd, (7 : ℚ))) (([0, 1, 2] : List ℚ).get? j) :=
  one_to_many_selects_min_destination ℚ 7 [0, 1, 2] [[0, 100, 50, 200]]
    0 [100, 50, 200] rfl (by norm_num)
    ⟨50, by norm_num [maxsize]⟩

/-- C4: in many-to-one and one-to-many calls, whenever the returned
travel time differs from the untouched sentinel `sys.maxsize / 3600`,
it equals the duration of a scanned candidate divided by 3600, and that
candidate is strictly positive — a zero or negative duration is never
selected. -/
theorem positive_selection_only :
    (∀ (α : Type) (sources : List α) (dest : α) (rows : List (List ℚ))
        (col : List ℚ) (tt : ℚ) (s dd : α),
      column0 rows = some col →
      get_travel_time_many_to_one sources dest rows = some (tt, s, dd) →
      tt ≠ maxsize / 3600 →
      ∃ c ∈ col, 0 < c ∧ tt = c / 3600)
    ∧ (∀ (α : Type) (src : α) (dests : List α) (rows : List (List ℚ))
        (row : List ℚ) (tt : ℚ) (dd ss : α),
      rows.head? = some row →
      get_travel_time_one_to_many src dests rows = some (tt, dd, ss) →
      tt ≠ maxsize / 3600 →
      ∃ c ∈ row, 0 < c ∧ tt = c / 3600) := by
  constructor
  · intro α sources dest rows col tt s dd hcol hres htt
    rcases scanDurations_spec col with ⟨hscan, -⟩ | ⟨j, d, hget, hpos, hlt, hscan, -, -⟩
    · exfalso
      cases hp : pyIndex sources (-1) with
      | none => simp [get_travel_time_many_to_one, hcol, hscan, hp] at hres
      | some s2 =>
          simp [get_travel_time_many_to_one, hcol, hscan, hp] at hres
          exact htt hres.1.symm
    · cases hp : pyIndex sources ((j : ℤ) - 1) with
      | none => simp [get_travel_time_many_to_one, hcol, hscan, hp] at hres
      | some s2 =>
          simp [get_travel_time_many_to_one, hcol, hscan, hp] at hres
          exact ⟨d, List.get?_mem hget, hpos, hres.1.symm⟩
  · intro α src dests rows row tt dd ss hrow hres htt
    rcases scanDurations_spec row with ⟨hscan, -⟩ | ⟨j, d, hget, hpos, hlt, hscan, -, -⟩
    · exfalso
      cases hp : pyIndex dests (-1) with
      | none => simp [get_travel_time_one_to_many, hrow, hscan, hp] at hres
      | some d2 =>
          simp [get_travel_time_one_to_many, hrow, hscan, hp] at hres
          exact htt hres.1.symm
    · cases hp : pyIndex dests ((j : ℤ) - 1) with
      | none => simp [get_travel_time_one_to_many, hrow, hscan, hp] at hres
      | some d2 =>
          simp [get_travel_time_one_to_many, hrow, hscan, hp] at hres
          exact ⟨d, List.get?_mem hget, hpos, hres.1.symm⟩

/-- C4 (witness): the many-to-one half applied to the column
`[0, 100, 50, 200]`, whose returned time `50/3600` is the positive
candidate `50` divided by 3600. -/
theorem positive_selection_only_witness :
    ∃ c ∈ ([0, 100, 50, 200] : List ℚ), 0 < c ∧ (50 : ℚ) / 3600 = c / 3600 :=
  positive_selection_only.1 ℚ [0, 1, 2] 9 [[0], [100], [50], [200]]
    [0, 100, 50, 200] (50 / 3600) 1 9 (by rfl)
    (by simp [get_travel_time_many_to_one, column0, scanDurations, scanAux,
      pyIndex, maxsize]; norm_num)
    (by norm_num [maxsize])

/-- C5: when no scanned duration is strictly positive, many-to-one and
one-to-many return the untouched sentinel `sys.maxsize / 3600` as the
travel time, and index the original coordinate list with `-1`, which
wraps to its last element. -/
theorem sentinel_when_no_positive :
    (∀ (α : Type) (sources : List α) (dest : α) (rows : List (List ℚ))
        (col : List ℚ) (h : sources ≠ []),
      column0 rows = some col → (∀ d ∈ col, d ≤ 0) →
      get_travel_time_many_to_one sources dest rows
        = some (maxsize / 3600, sources.getLast h, dest))
    ∧ (∀ (α : Type) (src : α) (dests : List α) (rows : List (List ℚ))
        (row : List ℚ) (h : dests ≠ []),
      rows.head? = some row → (∀ d ∈ row, d ≤ 0) →
      get_travel_time_one_to_many src dests rows
        = some (maxsize / 3600, dests.getLast h, src)) := by
  constructor
  · intro α sources dest rows col h hcol hnp
    have hscan : scanDurations col = (maxsize, -1) :=
      scanAux_of_no_candidate col maxsize (-1) 0
        (fun d hd => fun hc => absurd hc.1 (not_lt.mpr (hnp d hd)))
    simp only [get_travel_time_many_to_one, hcol, Option.some_bind, hscan]
    simp [pyIndex_neg_one sources h, hscan]
  · intro α src dests rows row h hrow hnp
    have hscan : scanDurations row = (maxsize, -1) :=
      scanAux_of_no_candidate row maxsize (-1) 0
        (fun d hd => fun hc => absurd hc.1 (not_lt.mpr (hnp d hd)))
    simp only [get_travel_time_one_to_many, hrow, Option.some_bind, hscan]
    simp [pyIndex_neg_one dests h, hscan]

/-- C5 (witness): the many-to-one half applied to a response whose
column `[0, -3, 0, -1]` has no positive duration: the result is the
sentinel divided by 3600 together with the last source. -/
theorem sentinel_when_no_positive_witness :
    get_travel_time_many_to_one [(0 : ℚ), 1, 2] 9 [[0], [-3], [0], [-1]]
      = some (maxsize / 3600, ([(0 : ℚ), 1, 2]).getLast (by simp), 9) :=
  sentinel_when_no_positive.1 ℚ [0, 1, 2] 9 [[0], [-3], [0], [-1]]
    [0, -3, 0, -1] (by simp) (by rfl) (by norm_num)

/-- C6 (counterexample): for the empty coordinate list the round trip
fails: the serialization is the empty string, which re-parses as one
empty `longitude,latitude` field and is rejected, not as the empty
sequence. -/
theorem serialize_parse_empty_fails :
    parseLocations readTable (serializeLocations renderTable []) ≠ some [] := by
  intro h
  rw [show parseLocations readTable (serializeLocations renderTable []) = none
      from rfl] at h
  exact Option.noConfusion h

/-- C6 (amended): for every nonempty coordinate list whose components
render as nonempty separator-free strings (as Python `str` of a float
does) with `read` inverting `render` on them, serializing to the
request string and re-parsing yields the original coordinate
sequence. -/
theorem serialize_parse_roundtrip
    (render : ℚ → String) (read : String → Option ℚ) (locs : List (ℚ × ℚ))
    (hne : locs ≠ [])
    (hgood : ∀ c ∈ locs, goodRender render c.1 ∧ goodRender render c.2)
    (hread : ∀ c ∈ locs, read (render c.1) = some c.1 ∧ read (render c.2) = some c.2) :
    parseLocations read (serializeLocations render locs) = some locs := by
  have hsemi : ∀ p ∈ locs.map (pairString render), ';' ∉ p.data := by
    intro p hp
    rcases List.mem_map.mp hp with ⟨c, hc, rfl⟩
    rcases hgood c hc with ⟨⟨-, h1s, -⟩, ⟨-, h2s, -⟩⟩
    rw [pairString_data]
    intro hcontra
    rcases List.mem_append.mp hcontra with hl | hr
    · exact h1s hl
    · rcases List.mem_cons.mp hr with heq | hr2
      · exact absurd heq (by decide)
      · exact h2s hr2
  rw [serializeLocations_eq_join render locs hne hgood, parseLocations,
    splitString_joinSemicolons (locs.map (pairString render))
      (by simpa using hne) hsemi,
    parsePairs_map read render locs hgood hread]

/-- C6 (witness): the amended round trip applied to the two-element
list `[(13, 55), (14, 56)]` with the concrete rendering/reading
pair. -/
theorem serialize_parse_roundtrip_witness :
    parseLocations readTable (serializeLocations renderTable [(13, 55), (14, 56)])
      = some [((13 : ℚ), (55 : ℚ)), (14, 56)] :=
  serialize_parse_roundtrip renderTable readTable [(13, 55), (14, 56)]
    (by simp)
    (by decide)
    (by decide)

/-- C7: in all three operations the request URL is the base table URL,
then the `longitude,latitude` fields of the combined location list joined
by `;` with no trailing separator, then the query string —
`?destinations=0&skip_waypoints=true` for many-to-one,
`?sources=0&skip_waypoints=true` for one-to-many, and
`?sources=0&destinations=1&skip_waypoints=true` for one-to-one. -/
theorem request_url_serialization :
    (∀ (render : ℚ → String) (sources : List (ℚ × ℚ)) (dest : ℚ × ℚ),
      (∀ c ∈ dest :: sources, goodRender render c.1 ∧ goodRender render c.2) →
      (many_to_one_request render sources dest).requestUrl
        = url ++ joinSemicolons ((dest :: sources).map (pairString render))
          ++ "?destinations=0&skip_waypoints=true")
    ∧ (∀ (render : ℚ → String) (src : ℚ × ℚ) (dests : List (ℚ × ℚ)),
      (∀ c ∈ src :: dests, goodRender render c.1 ∧ goodRender render c.2) →
      (one_to_many_request render src dests).requestUrl
        = url ++ joinSemicolons ((src :: dests).map (pairString render))
          ++ "?sources=0&skip_waypoints=true")
    ∧ (∀ (render : ℚ → String) (src dest : ℚ × ℚ),
      (∀ c ∈ [src, dest], goodRender render c.1 ∧ goodRender render c.2) →
      (one_to_one_request render src dest).requestUrl
        = url ++ joinSemicolons ([src, dest].map (pairString render))
          ++ "?sources=0&destinations=1&skip_waypoints=true") := by
  refine ⟨?_, ?_, ?_⟩
  · intro render sources dest hgood
    simp only [many_to_one_request]
    rw [serializeLocations_eq_join render (dest :: sources)
      (List.cons_ne_nil _ _) hgood]
  · intro render src dests hgood
    simp only [one_to_many_request]
    rw [serializeLocations_eq_join render (src :: dests)
      (List.cons_ne_nil _ _) hgood]
  · intro render src dest hgood
    simp only [one_to_one_request]
    rw [serializeLocations_eq_join render [src, dest]
      (List.cons_ne_nil _ _) hgood]

/-- C7 (witness): the many-to-one conjunct applied to one source and
one destination with the concrete rendering. -/
theorem request_url_serialization_witness :
    (many_to_one_request renderTable [(14, 56)] (13, 55)).requestUrl
      = url ++ joinSemicolons ([((13 : ℚ), (55 : ℚ)), (14, 56)].map (pairString renderTable))
        ++ "?destinations=0&skip_waypoints=true" :=
  request_url_serialization.1 renderTable [(14, 56)] (13, 55) (by decide)

/-- C8: the class defines a `headers` attribute holding
`Content-Type: application/json` (line 32, commented as required), but
every `httpclient.get(request)` call (lines 67, 136, 204) passes no
`headers` argument, so no outbound request of any operation carries
that header. -/
theorem requests_sent_without_headers :
    (∀ (render : ℚ → String) (sources : List (ℚ × ℚ)) (dest : ℚ × ℚ),
      (many_to_one_request render sources dest).passedHeaders = none)
    ∧ (∀ (render : ℚ → String) (src : ℚ × ℚ) (dests : List (ℚ × ℚ)),
      (one_to_many_request render src dests).passedHeaders = none)
    ∧ (∀ (render : ℚ → String) (src dest : ℚ × ℚ),
      (one_to_one_request render src dest).passedHeaders = none)
    ∧ headers = [("Content-Type", "application/json")] :=
  ⟨fun _ _ _ => rfl, fun _ _ _ => rfl, fun _ _ _ => rfl, rfl⟩

/-- C9: when the selection loop (shared by many-to-one and one-to-many)
returns a travel time other than the untouched sentinel, the winning
index is the lowest index achieving the minimum: `saved_idx + 1` points
at an occurrence of the returned minimum, and no earlier candidate is
both strictly positive and less than or equal to it — the strict
less-than comparison never replaces an earlier candidate with a later
equal one. -/
theorem scan_ties_select_lowest_index :
    ∀ (ds : List ℚ) (tt : ℚ) (si : ℤ),
      scanDurations ds = (tt, si) → tt ≠ maxsize →
      ∃ j : ℕ, si = (j : ℤ) - 1 ∧ ds.get? j = some tt ∧
        (∀ k e, ds.get? k = some e → 0 < e → tt ≤ e) ∧
        (∀ k, k < j → ∀ e, ds.get? k = some e → ¬(0 < e ∧ e ≤ tt)) := by
  intro ds tt si hscan htt
  rcases scanDurations_spec ds with ⟨hscan0, -⟩ | ⟨j, d, hget, hpos, hlt, hscan0, hmin, hties⟩
  · rw [hscan] at hscan0
    exact absurd (congrArg Prod.fst hscan0) htt
  · rw [hscan] at hscan0
    have h1 : tt = d := congrArg Prod.fst hscan0
    have h2 : si = (j : ℤ) - 1 := congrArg Prod.snd hscan0
    subst h1
    exact ⟨j, h2, hget, hmin, hties⟩

/-- C9 (witness): on the column `[5, 5, 7]` both candidates at indices
0 and 1 share the minimum `5`; the loop keeps index 0
(`saved_idx = -1`). -/
theorem scan_ties_select_lowest_index_witness :
    ∃ j : ℕ, (-1 : ℤ) = (j : ℤ) - 1 ∧ ([5, 5, 7] : List ℚ).get? j = some 5 ∧
      (∀ k e, ([5, 5, 7] : List ℚ).get? k = some e → 0 < e → 5 ≤ e) ∧
      (∀ k, k < j → ∀ e, ([5, 5, 7] : List ℚ).get? k = some e →
        ¬(0 < e ∧ e ≤ 5)) :=
  scan_ties_select_lowest_index [5, 5, 7] 5 (-1)
    (by simp [scanDurations, scanAux, maxsize]; norm_num)
    (by norm_num [maxsize])

/-- C10: the one-to-one operation applies no positivity filtering:
whatever number sits at row 0, column 0 — zero and negative values
included — is returned divided by 3600; in particular `[[0]]` yields
`0` and `[[-7200]]` yields `-2` hours. -/
theorem one_to_one_no_filtering :
    (∀ (α : Type) (src dest : α) (rows : List (List ℚ)) (row : List ℚ) (d : ℚ),
      rows.head? = some row → row.head? = some d → d ≤ 0 →
      get_travel_time_one_to_one src dest rows = some (d / 3600, src, dest))
    ∧ (∀ (α : Type) (src dest : α),
      get_travel_time_one_to_one src dest [[0]] = some (0, src, dest)
      ∧ get_travel_time_one_to_one src dest [[-7200]] = some (-2, src, dest)) := by
  constructor
  · intro α src dest rows row d hrow hd _
    simp [get_travel_time_one_to_one, hrow, hd]
  · intro α src dest
    constructor
    · simp [get_travel_time_one_to_one]
    · simp [get_travel_time_one_to_one]
      norm_num

/-- C10 (witness): the theorem applied to the mocked response
`[[-7200]]`: the negative entry is returned as `-7200 / 3600` with no
filtering. -/
theorem one_to_one_no_filtering_witness :
    get_travel_time_one_to_one (5 : ℚ) 6 [[-7200]] = some (-7200 / 3600, 5, 6) :=
  one_to_one_no_filtering.1 ℚ 5 6 [[-7200]] [-7200] (-7200) rfl rfl (by norm_num)

end TravelTimeOSRMCH
